import Mathlib

/-!
Verification of the audio segmentation and manifest reconciliation engine
(`py_scripts/src/kr_scraper/segment.py`).

Shallow embedding notes:
* Python `int` millisecond values are modelled as `Int` (they are unbounded).
* Python dicts with a fixed set of optional keys (`segment_params`,
  `segment`, syllable-table entries) are modelled as structures with
  `Option` fields; dicts used as ordered maps (`syllable_table`, `rows`,
  `columns`, timestamp maps) are modelled as association lists in insertion
  order with first-key lookup, which matches Python dict semantics for
  duplicate-free key sets.
* The filesystem and the audio codec (`pydub`) are modelled by an `Env`
  record: `present` is `Path.exists`, `decode` is `AudioSegment.from_mp3`
  (`none` models a raised decoding exception), `detect` is
  `pydub.silence.detect_nonsilent` on a decoded audio (the detector is an
  opaque deterministic function of the audio and the two tuning
  parameters; the fixed `seek_step=10` argument is absorbed into it).
* Functions that can raise return `Option`; `none` is an uncaught
  exception.  Clip exports are recorded as explicit `ClipWrite` values or
  `output_files` entries instead of mutating a filesystem.
* Operator-facing report strings (`source_label`, `override_applied`) are
  not modelled; no claim mentions them.
-/

namespace KrScraper

/-- Millisecond time range, called `SegmentTimestamp` in the code and
`TimeRange` in the specification. -/
structure SegmentTimestamp where
  start_ms : Int
  end_ms : Int
  padded_start_ms : Int
  padded_end_ms : Int
deriving DecidableEq

/-- The per-syllable `segment` dict persisted in the manifest
(spec name: `SegmentInfo`), with its three optional keys. -/
structure SegmentInfo where
  file : Option String
  baseline : Option SegmentTimestamp
  manual : Option SegmentTimestamp
deriving DecidableEq

/-- Python truthiness of the `segment` dict: an empty dict is falsy. -/
def SegmentInfo.isEmptyDict (d : SegmentInfo) : Bool :=
  d.file.isNone && d.baseline.isNone && d.manual.isNone

/-- One `syllable_table` entry: the optional keys of the persisted dict
(per the manifest schema: `consonant?`, `vowel?`, `romanization`,
`segment?`). -/
structure SyllableInfo where
  consonant : Option String
  vowel : Option String
  romanization : Option String
  segment : Option SegmentInfo
deriving DecidableEq

/-- Python truthiness of a syllable-table entry dict. -/
def SyllableInfo.truthy (i : SyllableInfo) : Bool :=
  i.consonant.isSome || i.vowel.isSome || i.romanization.isSome || i.segment.isSome

/-- A per-source override / `segment_params` dict: any subset of the six
recognised keys may be present. -/
structure Params where
  min_silence : Option Int := none
  threshold : Option Int := none
  padding : Option Int := none
  skip_first : Option Int := none
  skip_last : Option Int := none
  use_indices : Option (List Int) := none
deriving DecidableEq

/-- The empty params dict. -/
def Params.empty : Params := {}

/-- Python truthiness of the merged override dict. -/
def Params.isEmptyDict (p : Params) : Bool :=
  p.min_silence.isNone && p.threshold.isNone && p.padding.isNone &&
  p.skip_first.isNone && p.skip_last.isNone && p.use_indices.isNone

/-- First-some choice, i.e. the value a Python dict lookup would see after
`d.update(hi)`: `orO a b` prefers `a`. -/
def orO {α : Type} (a b : Option α) : Option α :=
  match a with
  | some v => some v
  | none => b

/-- `override = dict(default); override.update(manifest_params)`: field-wise
merge where `hi` (the manifest params) wins on every key it sets. -/
def mergeParams (lo hi : Params) : Params :=
  { min_silence := orO hi.min_silence lo.min_silence
    threshold := orO hi.threshold lo.threshold
    padding := orO hi.padding lo.padding
    skip_first := orO hi.skip_first lo.skip_first
    skip_last := orO hi.skip_last lo.skip_last
    use_indices := orO hi.use_indices lo.use_indices }

/-- A row or column entry of the manifest (`file`, `romanization`,
`syllables`, persisted `segment_params`). -/
structure SourceInfo where
  file : String
  romanization : Option String
  syllables : List String
  segment_params : Option Params
deriving DecidableEq

/-- The manifest: ordered `columns` and `rows` maps plus the flat
`syllable_table`. -/
structure Manifest where
  columns : List (String × SourceInfo)
  rows : List (String × SourceInfo)
  syllable_table : List (String × SyllableInfo)
deriving DecidableEq

/-- A decoded audio buffer; only its millisecond length is observable to
the engine besides boundary detection (which `Env.detect` models). -/
structure Audio where
  lengthMs : Int
deriving DecidableEq

/-- The external world: filesystem existence, the mp3 decoder
(`none` = decoding raises) and the silence-based boundary detector
`detect audio min_silence_len silence_thresh`. -/
structure Env where
  present : String → Bool
  decode : String → Option Audio
  detect : Audio → Int → Int → List (Int × Int)

/-- One clip export: output path and the half-open slice bounds (ms) cut
from the source audio. -/
structure ClipWrite where
  path : String
  sliceStart : Int
  sliceEnd : Int
deriving DecidableEq

/-- Ordered-dict lookup (first matching key). -/
def lookupD {β : Type} : List (String × β) → String → Option β
  | [], _ => none
  | p :: rest, key => if p.1 = key then some p.2 else lookupD rest key

/-- Ordered-dict assignment `d[k] = v`: replaces in place if the key
exists, appends otherwise. -/
def dictInsert {β : Type} (d : List (String × β)) (k : String) (v : β) :
    List (String × β) :=
  if d.any (fun p => p.1 = k) then
    d.map (fun p => if p.1 = k then (k, v) else p)
  else d ++ [(k, v)]

/-- `d.update(new)`: fold `dictInsert` over the entries of `new`. -/
def dictUpdateAll {β : Type} (d new : List (String × β)) : List (String × β) :=
  new.foldl (fun acc p => dictInsert acc p.1 p.2) d

/-- Replace the value stored at the first occurrence of `key`. -/
def tableUpdate {β : Type} : List (String × β) → String → β → List (String × β)
  | [], _, _ => []
  | p :: rest, key, v => if p.1 = key then (p.1, v) :: rest else p :: tableUpdate rest key v

/-- `lesson_dir / name` on POSIX paths. -/
def pathJoin (a b : String) : String := a ++ "/" ++ b

/-- Characters after the last slash. -/
def lastComponent (cs : List Char) : List Char :=
  cs.foldl (fun acc c => if c = '/' then [] else acc ++ [c]) []

/-- `Path(p).name`. -/
def pathName (s : String) : String := String.mk (lastComponent s.data)

/-- The `ROMANIZATION` map from `lesson1.py` (jamo to romanization). -/
def ROMANIZATION : List (String × String) :=
  [("ㅣ", "i"), ("ㅏ", "a"), ("ㅓ", "eo"), ("ㅡ", "eu"), ("ㅜ", "u"), ("ㅗ", "o"),
   ("ㅂ", "b"), ("ㅈ", "j"), ("ㄷ", "d"), ("ㄱ", "g"), ("ㅅ", "s"), ("ㅁ", "m"),
   ("ㄴ", "n"), ("ㅎ", "h"), ("ㄹ", "r")]

/-- Initial-consonant romanizations, indexed by choseong index. -/
def CHOSEONG_ROM : List String :=
  ["g", "kk", "n", "d", "tt", "r", "m", "b", "pp", "s",
   "ss", "", "j", "jj", "ch", "k", "t", "p", "h"]

/-- Vowel romanizations, indexed by jungseong index. -/
def JUNGSEONG_ROM : List String :=
  ["a", "ae", "ya", "yae", "eo", "e", "yeo", "ye", "o", "wa",
   "wae", "oe", "yo", "u", "wo", "we", "wi", "yu", "eu", "ui", "i"]

/-- Final-consonant romanizations, indexed by jongseong index. -/
def JONGSEONG_ROM : List String :=
  ["", "g", "gg", "gs", "n", "nj", "nh", "d", "r", "rg",
   "rm", "rb", "rs", "rt", "rp", "rh", "m", "b", "bs", "s",
   "ss", "ng", "j", "ch", "k", "t", "p", "h"]

/-- `romanize_syllable`: direct jamo mapping first, then decomposition of a
single composed-Hangul character, otherwise the input unchanged. -/
def romanize_syllable (syllable : String) : String :=
  match lookupD ROMANIZATION syllable with
  | some r => r
  | none =>
    match syllable.data with
    | [c] =>
      let code := c.toNat
      if 0xAC00 ≤ code ∧ code ≤ 0xD7A3 then
        let syllable_index := code - 0xAC00
        let cho_index := syllable_index / 588
        let jung_index := (syllable_index % 588) / 28
        let jong_index := syllable_index % 28
        CHOSEONG_ROM.getD cho_index "" ++
          (JUNGSEONG_ROM.getD jung_index "" ++ JONGSEONG_ROM.getD jong_index "")
      else syllable
    | _ => syllable

/-- Python `xs[k:]` (clamped at both ends, negative start counts from the
end). -/
def pyDropFrom {α : Type} (xs : List α) (k : Int) : List α :=
  if 0 ≤ k then xs.drop k.toNat else xs.drop (xs.length - (-k).toNat)

/-- Python `xs[i]` for a single index: `none` models an `IndexError`. -/
def pyIndex {α : Type} (xs : List α) (i : Int) : Option α :=
  if 0 ≤ i then xs.get? i.toNat
  else if (-i).toNat ≤ xs.length then xs.get? (xs.length - (-i).toNat) else none

/-- Left-to-right indexing of `bs` at each index, aborting on the first
`IndexError`. -/
def pyIndexList {α : Type} (bs : List α) : List Int → Option (List α)
  | [] => some []
  | i :: rest =>
    match pyIndex bs i with
    | none => none
    | some v =>
      match pyIndexList bs rest with
      | none => none
      | some vs => some (v :: vs)

/-- The `use_indices` comprehension
`[boundaries[i] for i in indices if i < len(boundaries)]`; `none` models the
`IndexError` raised by a negative index below `-len(boundaries)`. -/
def useIndicesSelect {α : Type} (bs : List α) (idxs : List Int) :
    Option (List α) :=
  pyIndexList bs (idxs.filter (fun i => i < (bs.length : Int)))

/-- The `skip_first` then `skip_last` slicing steps (lines 209-220 of
`segment.py`), returning the remaining boundaries and the tracked
`skipped_segments` count. -/
def skipPipeline (osf osl : Option Int) (bs0 : List (Int × Int)) :
    List (Int × Int) × Int :=
  let step1 : List (Int × Int) × Int :=
    match osf with
    | some k => (pyDropFrom bs0 k, k)
    | none => (bs0, 0)
  match osl with
  | some k =>
    ((if 0 < k then step1.1.take (step1.1.length - k.toNat) else step1.1),
     step1.2 + k)
  | none => step1

/-- Lines 200-229 of `segment.py`: apply the structural directives of the
merged override to the detected boundary list, in source order
(`skip_first`, then `skip_last`, then `use_indices` on the already skipped
list). -/
def applyStructural (override : Params) (bs0 : List (Int × Int)) :
    Option (List (Int × Int) × Int) :=
  if override.isEmptyDict then some (bs0, 0)
  else
    let step2 := skipPipeline override.skip_first override.skip_last bs0
    match override.use_indices with
    | some idxs => (useIndicesSelect step2.1 idxs).map (fun l => (l, step2.2))
    | none => some step2

/-- `DEFAULT_AUDIO_OVERRIDES.get(filename, dict())`. -/
def DEFAULT_AUDIO_OVERRIDES (filename : String) : Params :=
  if filename = "row_d.mp3" then { skip_first := some 1 }
  else if filename = "row_k.mp3" then { min_silence := some 150 }
  else {}

/-- The merged override used by `segment_audio_file`:
built-in per-filename defaults overridden key-wise by the manifest params
(`override = dict(default_override); override.update(manifest_params)`). -/
def effectiveOverride (audio_path : String) (manifest_params : Option Params) :
    Params :=
  mergeParams (DEFAULT_AUDIO_OVERRIDES (pathName audio_path))
    (manifest_params.getD Params.empty)

/-- The result record returned by `segment_audio_file` (reporting strings
`source_label` and `override_applied` are not modelled). -/
structure SegmentResultM where
  source_file : String
  syllables : List String
  segments_found : Int
  segments_saved : Nat
  output_files : List String
  mismatch : Bool
  skipped_segments : Int
  effective_params : Params
  timestamps : List (String × SegmentTimestamp)
deriving DecidableEq

/-- `segment_audio_file`: decode, resolve overrides, detect boundaries,
apply structural directives, pair with expected syllables and record the
padded extraction windows.  `none` models a raised exception (decode
failure, or `IndexError` from `use_indices`). -/
def segment_audio_file (env : Env) (audio_path : String)
    (syllables : List String) (output_dir : String)
    (min_silence_len silence_thresh padding_ms : Int)
    (manifest_params : Option Params) : Option SegmentResultM :=
  match env.decode audio_path with
  | none => none
  | some audio =>
    let override := effectiveOverride audio_path manifest_params
    let effective_min_silence := override.min_silence.getD min_silence_len
    let effective_threshold := override.threshold.getD silence_thresh
    let effective_padding := override.padding.getD padding_ms
    let boundaries0 := env.detect audio effective_min_silence effective_threshold
    match applyStructural override boundaries0 with
    | none => none
    | some bsk =>
      let boundaries := bsk.1
      let skipped_segments := bsk.2
      let mismatch := boundaries.length != syllables.length
      let paired := boundaries.zip syllables
      some
        { source_file := audio_path
          syllables := syllables
          segments_found := (boundaries.length : Int) + skipped_segments
          segments_saved := paired.length
          output_files := paired.map
            (fun pr => pathJoin output_dir (romanize_syllable pr.2 ++ ".mp3"))
          mismatch := mismatch
          skipped_segments := skipped_segments
          effective_params :=
            { min_silence := some effective_min_silence
              threshold := some effective_threshold
              padding := some effective_padding
              skip_first := override.skip_first
              skip_last := override.skip_last
              use_indices := none }
          timestamps := paired.foldl
            (fun d pr => dictInsert d (romanize_syllable pr.2)
              { start_ms := pr.1.1
                end_ms := pr.1.2
                padded_start_ms := max 0 (pr.1.1 - effective_padding)
                padded_end_ms := min audio.lengthMs (pr.1.2 + effective_padding) })
            [] }

/-- Accumulated state of the per-source loops of `segment_lesson1`:
the rewritten source map, the result map keyed by audio path, and the
running `all_timestamps` union. -/
structure ProcState where
  srcs : List (String × SourceInfo)
  results : List (String × SegmentResultM)
  all_ts : List (String × SegmentTimestamp)
deriving DecidableEq

/-- The body of one iteration of the `segment_lesson1` source loops:
a missing audio file is skipped (`continue`), otherwise the source is
segmented (a raised exception propagates as `none`) and its effective
params are stored back into the source entry. -/
def processStep (env : Env) (lesson_dir syllables_dir : String)
    (min_silence_len silence_thresh padding_ms : Int) (reset_params : Bool)
    (st : ProcState) (src : String × SourceInfo) : Option ProcState :=
  let audio_path := pathJoin lesson_dir src.2.file
  if env.present audio_path = false then
    some { st with srcs := st.srcs ++ [src] }
  else
    let manifest_params :=
      if reset_params then Params.empty else src.2.segment_params.getD Params.empty
    match segment_audio_file env audio_path src.2.syllables syllables_dir
        min_silence_len silence_thresh padding_ms (some manifest_params) with
    | none => none
    | some r =>
      some
        { srcs := st.srcs ++
            [(src.1, { src.2 with segment_params := some r.effective_params })]
          results := dictInsert st.results audio_path r
          all_ts := dictUpdateAll st.all_ts r.timestamps }

/-- Run `processStep` over a source list, left to right, aborting on the
first raised exception. -/
def processSources (env : Env) (lesson_dir syllables_dir : String)
    (min_silence_len silence_thresh padding_ms : Int) (reset_params : Bool) :
    ProcState → List (String × SourceInfo) → Option ProcState
  | st, [] => some st
  | st, src :: rest =>
    match processStep env lesson_dir syllables_dir min_silence_len
        silence_thresh padding_ms reset_params st src with
    | none => none
    | some st' =>
      processSources env lesson_dir syllables_dir min_silence_len
        silence_thresh padding_ms reset_params st' rest

/-- One entry of the `update_manifest_with_segments` loop: an entry whose
romanization is absent from `all_timestamps`, or whose output file does not
exist, is returned unchanged; otherwise its `segment` is rebuilt around the
new baseline, carrying over an existing `manual`. -/
def updateSyllableEntry (present : String → Bool) (syllables_dir : String)
    (all_timestamps : List (String × SegmentTimestamp))
    (p : String × SyllableInfo) : String × SyllableInfo :=
  let romanization := p.2.romanization.getD ""
  match lookupD all_timestamps romanization with
  | none => p
  | some ts =>
    let segment_file := "syllables/" ++ romanization ++ ".mp3"
    let full_path := pathJoin syllables_dir (romanization ++ ".mp3")
    if present full_path then
      let segment_info : SegmentInfo :=
        { file := some segment_file
          baseline := some ts
          manual := p.2.segment.bind SegmentInfo.manual }
      (p.1, { p.2 with segment := some segment_info })
    else p

/-- `update_manifest_with_segments` restricted to the syllable table (the
function reads the manifest, rewrites `syllable_table` in place and writes
it back; a `None` timestamps argument is the empty list here). -/
def update_manifest_with_segments (present : String → Bool)
    (syllables_dir : String) (syllable_table : List (String × SyllableInfo))
    (all_timestamps : List (String × SegmentTimestamp)) :
    List (String × SyllableInfo) :=
  syllable_table.map (updateSyllableEntry present syllables_dir all_timestamps)

/-- `update_manifest_with_segments` at the whole-manifest level: every part
other than `syllable_table` is written back unchanged. -/
def update_manifest_with_segments_m (present : String → Bool)
    (syllables_dir : String) (m : Manifest)
    (all_timestamps : List (String × SegmentTimestamp)) : Manifest :=
  let table' :=
    update_manifest_with_segments present syllables_dir m.syllable_table
      all_timestamps
  { m with syllable_table := table' }

/-- `segment_lesson1` on an already-loaded manifest: process columns, then
rows, write the effective params back, then reconcile the syllable table
(`update_manifest_with_segments` sees the files just exported by this run
in addition to the pre-existing ones).  `none` models an exception escaping
the loops, in which case nothing is written back. -/
def segment_lesson1 (env : Env) (lesson_dir : String) (manifest : Manifest)
    (min_silence_len silence_thresh padding_ms : Int) (reset_params : Bool) :
    Option (List (String × SegmentResultM) × Manifest) :=
  let syllables_dir := pathJoin lesson_dir "syllables"
  match processSources env lesson_dir syllables_dir min_silence_len
      silence_thresh padding_ms reset_params ⟨[], [], []⟩ manifest.columns with
  | none => none
  | some stC =>
    match processSources env lesson_dir syllables_dir min_silence_len
        silence_thresh padding_ms reset_params ⟨[], stC.results, stC.all_ts⟩
        manifest.rows with
    | none => none
    | some stR =>
      let manifest' := { manifest with columns := stC.srcs, rows := stR.srcs }
      let present' := fun p =>
        env.present p || stR.results.any (fun pr => pr.2.output_files.contains p)
      some (stR.results,
        update_manifest_with_segments_m present' syllables_dir manifest'
          stR.all_ts)

/-- `rows` scan shared by `apply_manual_segment` and
`reset_manual_segment`: the first row whose `syllables` list contains the
syllable. -/
def findRow : List (String × SourceInfo) → String → Option SourceInfo
  | [], _ => none
  | p :: rest, syllable =>
    if syllable ∈ p.2.syllables then some p.2 else findRow rest syllable

/-- `apply_manual_segment` on an already-loaded manifest.  Returns the
success flag, the manifest to be written back, and the clip exports
performed; `none` models a raised decoding exception. -/
def apply_manual_segment (env : Env) (lesson_dir : String) (m : Manifest)
    (syllable : String) (start_ms end_ms padding_ms : Int) :
    Option (Bool × Manifest × List ClipWrite) :=
  match lookupD m.syllable_table syllable with
  | none => some (false, m, [])
  | some syllable_info =>
    if syllable_info.truthy = false then some (false, m, [])
    else
      let romanization := syllable_info.romanization.getD ""
      match findRow m.rows syllable with
      | none => some (false, m, [])
      | some source_row =>
        let audio_path := pathJoin lesson_dir source_row.file
        if env.present audio_path = false then some (false, m, [])
        else
          match env.decode audio_path with
          | none => none
          | some audio =>
            let padded_start := max 0 (start_ms - padding_ms)
            let padded_end := min audio.lengthMs (end_ms + padding_ms)
            let output_path :=
              pathJoin (pathJoin lesson_dir "syllables") (romanization ++ ".mp3")
            let seg0 : SegmentInfo :=
              match syllable_info.segment with
              | none =>
                { file := some ("syllables/" ++ romanization ++ ".mp3")
                  baseline := none, manual := none }
              | some d =>
                if d.isEmptyDict then
                  { file := some ("syllables/" ++ romanization ++ ".mp3")
                    baseline := none, manual := none }
                else if d.file.isNone then
                  { d with file := some ("syllables/" ++ romanization ++ ".mp3") }
                else d
            let manual_tr : SegmentTimestamp :=
              { start_ms := start_ms, end_ms := end_ms
                padded_start_ms := padded_start, padded_end_ms := padded_end }
            let seg1 := { seg0 with manual := some manual_tr }
            let table' :=
              tableUpdate m.syllable_table syllable
                { syllable_info with segment := some seg1 }
            some (true, { m with syllable_table := table' },
              [{ path := output_path, sliceStart := padded_start,
                 sliceEnd := padded_end }])

/-- `reset_manual_segment` on an already-loaded manifest, in the same
encoding as `apply_manual_segment`. -/
def reset_manual_segment (env : Env) (lesson_dir : String) (m : Manifest)
    (syllable : String) : Option (Bool × Manifest × List ClipWrite) :=
  match lookupD m.syllable_table syllable with
  | none => some (false, m, [])
  | some syllable_info =>
    if syllable_info.truthy = false then some (false, m, [])
    else
      let romanization := syllable_info.romanization.getD ""
      match syllable_info.segment with
      | none => some (false, m, [])
      | some segment_info =>
        match segment_info.baseline with
        | none => some (false, m, [])
        | some baseline =>
          match findRow m.rows syllable with
          | none => some (false, m, [])
          | some source_row =>
            let audio_path := pathJoin lesson_dir source_row.file
            if env.present audio_path = false then some (false, m, [])
            else
              match env.decode audio_path with
              | none => none
              | some _audio =>
                let output_path :=
                  pathJoin (pathJoin lesson_dir "syllables")
                    (romanization ++ ".mp3")
                let seg' : SegmentInfo := { segment_info with manual := none }
                let table' :=
                  tableUpdate m.syllable_table syllable
                    { syllable_info with segment := some seg' }
                some (true, { m with syllable_table := table' },
                  [{ path := output_path
                     sliceStart := baseline.padded_start_ms
                     sliceEnd := baseline.padded_end_ms }])

/-! ### Reconciliation lemmas (update_manifest_with_segments) -/

lemma updateSyllableEntry_skip (present : String → Bool) (dir : String)
    (ts : List (String × SegmentTimestamp)) (p : String × SyllableInfo)
    (h : lookupD ts (p.2.romanization.getD "") = none) :
    updateSyllableEntry present dir ts p = p := by
  simp [updateSyllableEntry, h]

lemma updateSyllableEntry_hit (present : String → Bool) (dir : String)
    (ts : List (String × SegmentTimestamp)) (p : String × SyllableInfo)
    (tr : SegmentTimestamp)
    (h : lookupD ts (p.2.romanization.getD "") = some tr)
    (hp : present (pathJoin dir ((p.2.romanization.getD "") ++ ".mp3")) = true) :
    updateSyllableEntry present dir ts p =
      (p.1, { p.2 with segment := some (SegmentInfo.mk
        (some ("syllables/" ++ (p.2.romanization.getD "") ++ ".mp3"))
        (some tr) (p.2.segment.bind SegmentInfo.manual)) }) := by
  simp [updateSyllableEntry, h, hp]

lemma updateSyllableEntry_manual (present : String → Bool) (dir : String)
    (ts : List (String × SegmentTimestamp)) (p : String × SyllableInfo) :
    (updateSyllableEntry present dir ts p).2.segment.bind SegmentInfo.manual
      = p.2.segment.bind SegmentInfo.manual := by
  unfold updateSyllableEntry
  cases h : lookupD ts (p.2.romanization.getD "") with
  | none => simp [h]
  | some tr =>
    by_cases hp : present (pathJoin dir ((p.2.romanization.getD "") ++ ".mp3"))
    · simp [h, hp]
    · simp [h, hp]

lemma update_nil_ts (present : String → Bool) (dir : String)
    (tbl : List (String × SyllableInfo)) :
    update_manifest_with_segments present dir tbl [] = tbl := by
  unfold update_manifest_with_segments
  induction tbl with
  | nil => rfl
  | cons hd tl ih =>
    rw [List.map_cons, updateSyllableEntry_skip present dir [] hd rfl, ih]

/-- Claim C1: every syllable-table entry whose romanization is not a key of
`all_timestamps` is unchanged by `update_manifest_with_segments` (the entry
at each list position, hence also its `manual` field), and reconciling an
empty timestamps map leaves the entire manifest unchanged. -/
theorem c1_selective_update :
    (∀ (present : String → Bool) (dir : String)
       (ts : List (String × SegmentTimestamp))
       (table : List (String × SyllableInfo)) (i : Nat)
       (syl : String) (info : SyllableInfo),
       table[i]? = some (syl, info) →
       lookupD ts (info.romanization.getD "") = none →
       (update_manifest_with_segments present dir table ts)[i]? =
         some (syl, info))
    ∧ (∀ (present : String → Bool) (dir : String) (m : Manifest),
       update_manifest_with_segments_m present dir m [] = m) := by
  constructor
  · intro present dir ts table i syl info h hl
    unfold update_manifest_with_segments
    rw [List.getElem?_map, h]
    have hs := updateSyllableEntry_skip present dir ts (syl, info) hl
    simp [hs]
  · intro present dir m
    obtain ⟨cols, rows, tbl⟩ := m
    simp [update_manifest_with_segments_m, update_nil_ts]

/-- Closed instance of claim C1 at a concrete table and timestamp map. -/
theorem c1_selective_update_witness :
    ([(("가" : String),
       ({ consonant := some "ㄱ", vowel := some "ㅏ",
          romanization := some "ga", segment := none } : SyllableInfo))][0]? =
      some ("가", { consonant := some "ㄱ", vowel := some "ㅏ",
                    romanization := some "ga", segment := none }))
    ∧ (update_manifest_with_segments (fun _ => true) "L/syllables"
        [("가", { consonant := some "ㄱ", vowel := some "ㅏ",
                  romanization := some "ga", segment := none })]
        [("na", ⟨0, 400, 0, 450⟩)])[0]? =
      some ("가", { consonant := some "ㄱ", vowel := some "ㅏ",
                    romanization := some "ga", segment := none })
    ∧ update_manifest_with_segments_m (fun _ => true) "L/syllables"
        ⟨[], [], []⟩ [] = ⟨[], [], []⟩ :=
  ⟨by decide,
   c1_selective_update.1 (fun _ => true) "L/syllables"
     [("na", ⟨0, 400, 0, 450⟩)]
     [("가", { consonant := some "ㄱ", vowel := some "ㅏ",
               romanization := some "ga", segment := none })]
     0 "가"
     { consonant := some "ㄱ", vowel := some "ㅏ",
       romanization := some "ga", segment := none }
     (by decide) (by decide),
   c1_selective_update.2 (fun _ => true) "L/syllables" ⟨[], [], []⟩⟩

/-- Concrete syllable-table entry used by the claim C2 witness: an entry
with an existing baseline and a manual override. -/
def wGaInfo : SyllableInfo :=
  { consonant := some "ㄱ", vowel := some "ㅏ", romanization := some "ga",
    segment := some (SegmentInfo.mk (some "syllables/ga.mp3")
      (some ⟨0, 400, 0, 475⟩) (some ⟨50, 350, 0, 425⟩)) }

/-- Claim C2: for an entry whose romanization is a key of the batch's
timestamp map and whose output file exists, the new `segment` carries the
new baseline while the `manual` field is carried over verbatim; and at
every table position the reconciliation neither creates nor removes a
`manual` field. -/
theorem c2_baseline_replaced_manual_preserved :
    (∀ (present : String → Bool) (dir : String)
       (ts : List (String × SegmentTimestamp))
       (table : List (String × SyllableInfo)) (i : Nat)
       (syl : String) (info : SyllableInfo) (tr : SegmentTimestamp),
       table[i]? = some (syl, info) →
       lookupD ts (info.romanization.getD "") = some tr →
       present (pathJoin dir ((info.romanization.getD "") ++ ".mp3")) = true →
       (update_manifest_with_segments present dir table ts)[i]? =
         some (syl, { info with segment := some (SegmentInfo.mk
           (some ("syllables/" ++ (info.romanization.getD "") ++ ".mp3"))
           (some tr) (info.segment.bind SegmentInfo.manual)) }))
    ∧ (∀ (present : String → Bool) (dir : String)
       (ts : List (String × SegmentTimestamp))
       (table : List (String × SyllableInfo)) (i : Nat),
       ((update_manifest_with_segments present dir table ts)[i]?).map
           (fun p => p.2.segment.bind SegmentInfo.manual)
         = (table[i]?).map (fun p => p.2.segment.bind SegmentInfo.manual)) := by
  constructor
  · intro present dir ts table i syl info tr h hl hp
    unfold update_manifest_with_segments
    rw [List.getElem?_map, h]
    have hs := updateSyllableEntry_hit present dir ts (syl, info) tr hl hp
    simp [hs]
  · intro present dir ts table i
    unfold update_manifest_with_segments
    rw [List.getElem?_map]
    cases h : table[i]? with
    | none => rfl
    | some p => simp [updateSyllableEntry_manual]

/-- Closed instance of claim C2: baseline replaced, manual carried over. -/
theorem c2_baseline_replaced_manual_preserved_witness :
    (update_manifest_with_segments (fun _ => true) "L/syllables"
      [("가", wGaInfo)] [("ga", ⟨8, 398, 0, 448⟩)])[0]? =
    some ("가", { wGaInfo with segment := some (SegmentInfo.mk
      (some "syllables/ga.mp3") (some ⟨8, 398, 0, 448⟩)
      (some ⟨50, 350, 0, 425⟩)) }) := by
  have h := c2_baseline_replaced_manual_preserved.1 (fun _ => true)
    "L/syllables" [("ga", ⟨8, 398, 0, 448⟩)] [("가", wGaInfo)] 0 "가" wGaInfo
    ⟨8, 398, 0, 448⟩ (by decide) (by decide) (by decide)
  rw [h]
  decide

/-! ### Romanization (claim C10) -/

lemma rom_keys_single_low :
    ∀ p ∈ ROMANIZATION, p.1.data.length = 1 ∧ (p.1.data.headD 'a').toNat < 0xAC00 := by
  decide

lemma lookupD_eq_none_of {β : Type} (l : List (String × β)) (key : String)
    (h : ∀ p ∈ l, p.1 ≠ key) : lookupD l key = none := by
  induction l with
  | nil => rfl
  | cons hd tl ih =>
    simp only [lookupD]
    rw [if_neg (h hd (List.mem_cons_self _ _))]
    exact ih (fun p hp => h p (List.mem_cons_of_mem _ hp))

lemma lookupROM_composed_none (c : Char) (h : 0xAC00 ≤ c.toNat) :
    lookupD ROMANIZATION (String.mk [c]) = none := by
  apply lookupD_eq_none_of
  intro p hp heq
  have h2 := rom_keys_single_low p hp
  rw [heq] at h2
  have h3 : ((String.mk [c]).data.headD 'a').toNat = c.toNat := rfl
  have h4 := h2.2
  omega

/-- Claim C10: on every single composed-Hangul character the decomposition
indices are in bounds of the three romanization tables and
`romanize_syllable` returns the concatenation of the three parts; every
other input not found in the `ROMANIZATION` map is returned unchanged. -/
theorem c10_romanize_total :
    (∀ c : Char, 0xAC00 ≤ c.toNat → c.toNat ≤ 0xD7A3 →
       ((c.toNat - 0xAC00) / 588 < CHOSEONG_ROM.length ∧
        ((c.toNat - 0xAC00) % 588) / 28 < JUNGSEONG_ROM.length ∧
        (c.toNat - 0xAC00) % 28 < JONGSEONG_ROM.length) ∧
       romanize_syllable (String.mk [c]) =
         CHOSEONG_ROM.getD ((c.toNat - 0xAC00) / 588) "" ++
           (JUNGSEONG_ROM.getD (((c.toNat - 0xAC00) % 588) / 28) "" ++
            JONGSEONG_ROM.getD ((c.toNat - 0xAC00) % 28) ""))
    ∧ (∀ s : String, lookupD ROMANIZATION s = none →
       (∀ c : Char, s.data = [c] → ¬(0xAC00 ≤ c.toNat ∧ c.toNat ≤ 0xD7A3)) →
       romanize_syllable s = s) := by
  constructor
  · intro c h1 h2
    constructor
    · have e1 : CHOSEONG_ROM.length = 19 := rfl
      have e2 : JUNGSEONG_ROM.length = 21 := rfl
      have e3 : JONGSEONG_ROM.length = 28 := rfl
      rw [e1, e2, e3]
      omega
    · unfold romanize_syllable
      rw [lookupROM_composed_none c h1]
      simp [h1, h2]
  · intro s hl hc
    unfold romanize_syllable
    rw [hl]
    cases hd : s.data with
    | nil => simp only [hd]
    | cons c rest =>
      cases rest with
      | nil =>
        simp only [hd]
        rw [if_neg (hc c hd)]
      | cons c' rest' => simp only [hd]

/-- Closed instance of claim C10: one composed syllable decomposed, one
unmapped ASCII string returned unchanged. -/
theorem c10_romanize_total_witness :
    romanize_syllable (String.mk ['가']) = "ga" ∧
    romanize_syllable "Q" = "Q" := by
  constructor
  · have h := (c10_romanize_total.1 '가' (by decide) (by decide)).2
    rw [h]
    decide
  · apply c10_romanize_total.2 "Q" (by decide)
    intro c hc
    have h2 : "Q".data = ['Q'] := rfl
    rw [h2] at hc
    injection hc with h3 h4
    rw [← h3]
    decide

/-! ### Structural overrides (claims C4, C5) -/

/-- Claim C4 as stated: whenever the effective override contains
`use_indices`, the resulting interval list equals the elements of the
post-detection (unskipped) list at the given in-range positions, in order
— i.e. `use_indices` overrides `skip_first` and `skip_last`. -/
def c4ClaimStatement : Prop :=
  ∀ (override : Params) (bs : List (Int × Int)) (idxs : List Int)
    (out : List (Int × Int) × Int),
    override.use_indices = some idxs →
    (∀ i ∈ idxs, 0 ≤ i ∧ i < (bs.length : Int)) →
    applyStructural override bs = some out →
    out.1 = idxs.map (fun i => bs.getD i.toNat (0, 0))

/-- Claim C4 is false: with `skip_first = 1` and `use_indices = [0]` on the
detected list `[(0,100), (200,300)]` the code selects `(200,300)` (position
0 of the post-skip list), not `(0,100)` (position 0 of the post-detection
list). -/
theorem c4_use_indices_counterexample : ¬ c4ClaimStatement := by
  intro h
  have h2 := h { skip_first := some 1, use_indices := some [0] }
    [(0, 100), (200, 300)] [0] ([(200, 300)], 1) rfl (by decide) (by decide)
  exact absurd h2 (by decide)

lemma get?_eq_some_getD {α : Type} (xs : List α) (n : Nat) (d : α)
    (h : n < xs.length) : xs.get? n = some (xs.getD n d) := by
  induction xs generalizing n with
  | nil => simp at h
  | cons a tl ih =>
    cases n with
    | zero => rfl
    | succ k => exact ih k (by simpa using h)

lemma pyIndexList_all_in_range (bs : List (Int × Int)) :
    ∀ l : List Int, (∀ i ∈ l, 0 ≤ i ∧ i < (bs.length : Int)) →
    pyIndexList bs l = some (l.map (fun i => bs.getD i.toNat (0, 0))) := by
  intro l
  induction l with
  | nil => intro h; rfl
  | cons a tl ih =>
    intro h
    have ha := h a (List.mem_cons_self _ _)
    have hstep : pyIndex bs a = some (bs.getD a.toNat (0, 0)) := by
      unfold pyIndex
      rw [if_pos ha.1]
      exact get?_eq_some_getD _ _ _ (by omega)
    simp only [pyIndexList, hstep,
      ih (fun i hi => h i (List.mem_cons_of_mem _ hi)), List.map_cons]

lemma useIndicesSelect_nonneg (bs : List (Int × Int)) (idxs : List Int)
    (h : ∀ i ∈ idxs, 0 ≤ i) :
    useIndicesSelect bs idxs =
      some ((idxs.filter (fun i => i < (bs.length : Int))).map
        (fun i => bs.getD i.toNat (0, 0))) := by
  unfold useIndicesSelect
  apply pyIndexList_all_in_range
  intro i hi
  simp only [List.mem_filter, decide_eq_true_eq] at hi
  exact ⟨h i hi.1, hi.2⟩

/-- Claim C4 (amended): `use_indices` selects positionally from the
post-skip list, not the post-detection list; when the effective override
sets neither `skip_first` nor `skip_last` (and the indices are
nonnegative), the result is exactly the elements of the post-detection
list at the in-range positions, in the given order, with nothing counted
as skipped. -/
theorem c4_amended_use_indices (override : Params) (bs : List (Int × Int))
    (idxs : List Int)
    (hui : override.use_indices = some idxs)
    (hsf : override.skip_first = none)
    (hsl : override.skip_last = none)
    (hnn : ∀ i ∈ idxs, 0 ≤ i) :
    applyStructural override bs =
      some ((idxs.filter (fun i => i < (bs.length : Int))).map
        (fun i => bs.getD i.toNat (0, 0)), 0) := by
  have hne : override.isEmptyDict = false := by
    unfold Params.isEmptyDict
    rw [hui]
    simp
  unfold applyStructural
  rw [hne]
  simp only [Bool.false_eq_true, if_false, hsf, hsl, hui, skipPipeline]
  rw [useIndicesSelect_nonneg bs idxs hnn]
  rfl

/-- Closed instance of the amended claim C4: a pure `use_indices` override
reorders the detected intervals exactly as selected. -/
theorem c4_amended_use_indices_witness :
    applyStructural { use_indices := some [1, 0] } [(0, 100), (200, 300)] =
      some ([(200, 300), (0, 100)], 0) := by
  have h := c4_amended_use_indices { use_indices := some [1, 0] }
    [(0, 100), (200, 300)] [1, 0] rfl rfl rfl (by decide)
  rw [h]
  decide

/-- Environment for the claim C5 instances: one decodable file whose
detector reports three intervals. -/
def envC5 : Env :=
  { present := fun _ => true
    decode := fun p => if p = "L/row_z.mp3" then some ⟨1000⟩ else none
    detect := fun _ _ _ => [(0, 100), (200, 300), (400, 500)] }

/-- Claim C5 is false in its `segments_found` conjunct: with a
`use_indices = [0]` override the detector finds 3 intervals, but the
returned `segments_found` is 1, not the pre-subtraction count 3. -/
theorem c5_segments_found_counterexample :
    (segment_audio_file envC5 "L/row_z.mp3" ["가"] "L/syllables" 200 (-40) 50
        (some { use_indices := some [0] })).map SegmentResultM.segments_found
      = some 1 ∧
    (envC5.detect ⟨1000⟩ 200 (-40)).length = 3 ∧ (1 : Int) ≠ 3 :=
  ⟨by decide, by decide, by decide⟩

lemma isEmptyDict_fields (p : Params) (h : p.isEmptyDict = true) :
    p.skip_first = none ∧ p.skip_last = none ∧ p.use_indices = none := by
  unfold Params.isEmptyDict at h
  simp only [Bool.and_eq_true, Option.isNone_iff_eq_none] at h
  exact ⟨h.1.1.2, h.1.2, h.2⟩

lemma skipPipeline_length (osf osl : Option Int) (bs0 : List (Int × Int))
    (h1 : 0 ≤ osf.getD 0) (h2 : 0 ≤ osl.getD 0)
    (h3 : (osf.getD 0).toNat + (osl.getD 0).toNat ≤ bs0.length) :
    ((skipPipeline osf osl bs0).1.length : Int) + (skipPipeline osf osl bs0).2
      = (bs0.length : Int) := by
  cases osf with
  | none =>
    cases osl with
    | none => simp [skipPipeline]
    | some k2 =>
      simp only [Option.getD_some, Option.getD_none] at h1 h2 h3
      by_cases h0 : 0 < k2
      · simp only [skipPipeline, if_pos h0, List.length_take]
        have hk2 : ((k2.toNat : Int)) = k2 := Int.toNat_of_nonneg h2
        omega
      · simp only [skipPipeline, if_neg h0]
        have hk2 : k2 = 0 := by omega
        omega
  | some k1 =>
    have hd : pyDropFrom bs0 k1 = bs0.drop k1.toNat := by
      unfold pyDropFrom
      rw [if_pos (by simpa using h1)]
    have hk1 : ((k1.toNat : Int)) = k1 :=
      Int.toNat_of_nonneg (by simpa using h1)
    cases osl with
    | none =>
      simp only [skipPipeline, hd, List.length_drop]
      simp only [Option.getD_some, Option.getD_none] at h3
      omega
    | some k2 =>
      simp only [Option.getD_some] at h1 h2 h3
      have hk2 : ((k2.toNat : Int)) = k2 := Int.toNat_of_nonneg h2
      by_cases h0 : 0 < k2
      · simp only [skipPipeline, hd, if_pos h0, List.length_take,
          List.length_drop]
        omega
      · simp only [skipPipeline, hd, if_neg h0, List.length_drop]
        have hz : k2 = 0 := by omega
        omega

lemma applyStructural_no_use_indices (ov : Params) (bs0 bs : List (Int × Int))
    (sk : Int)
    (h : applyStructural ov bs0 = some (bs, sk))
    (hui : ov.use_indices = none)
    (h1 : 0 ≤ ov.skip_first.getD 0)
    (h2 : 0 ≤ ov.skip_last.getD 0)
    (h3 : (ov.skip_first.getD 0).toNat + (ov.skip_last.getD 0).toNat
            ≤ bs0.length) :
    (bs.length : Int) + sk = (bs0.length : Int) := by
  unfold applyStructural at h
  cases hg : ov.isEmptyDict with
  | true =>
    rw [hg] at h
    simp only [if_true, Option.some.injEq, Prod.mk.injEq] at h
    obtain ⟨h4, h5⟩ := h
    subst h4
    omega
  | false =>
    rw [hg] at h
    simp only [Bool.false_eq_true, if_false, hui, Option.some.injEq] at h
    have hlen := skipPipeline_length ov.skip_first ov.skip_last bs0 h1 h2 h3
    rw [h] at hlen
    exact hlen

/-- Claim C5 (amended): `mismatch` compares the post-override interval
count with the expected syllable count and never aborts; exactly
`min (remaining, expected)` clips are saved; `segments_found` equals the
remaining count plus the declared skip amounts, which equals the
pre-subtraction detected count exactly when no `use_indices` override is
present and the (nonnegative) skip amounts do not exceed the detected
count — with `use_indices`, `segments_found` is not the pre-discard count. -/
theorem c5_amended_result_counts (env : Env) (audio_path : String)
    (syllables : List String) (output_dir : String)
    (min_silence_len silence_thresh padding_ms : Int)
    (manifest_params : Option Params) (audio : Audio)
    (bs : List (Int × Int)) (sk : Int) (r : SegmentResultM)
    (hdec : env.decode audio_path = some audio)
    (hstruct : applyStructural (effectiveOverride audio_path manifest_params)
        (env.detect audio
          ((effectiveOverride audio_path manifest_params).min_silence.getD
            min_silence_len)
          ((effectiveOverride audio_path manifest_params).threshold.getD
            silence_thresh))
      = some (bs, sk))
    (hr : segment_audio_file env audio_path syllables output_dir
        min_silence_len silence_thresh padding_ms manifest_params = some r) :
    ((r.mismatch = true) ↔ bs.length ≠ syllables.length) ∧
    r.segments_saved = min bs.length syllables.length ∧
    r.segments_found = (bs.length : Int) + sk ∧
    ((effectiveOverride audio_path manifest_params).use_indices = none →
      0 ≤ (effectiveOverride audio_path manifest_params).skip_first.getD 0 →
      0 ≤ (effectiveOverride audio_path manifest_params).skip_last.getD 0 →
      ((effectiveOverride audio_path manifest_params).skip_first.getD 0).toNat
          + ((effectiveOverride audio_path
              manifest_params).skip_last.getD 0).toNat
        ≤ (env.detect audio
            ((effectiveOverride audio_path manifest_params).min_silence.getD
              min_silence_len)
            ((effectiveOverride audio_path manifest_params).threshold.getD
              silence_thresh)).length →
      r.segments_found =
        ((env.detect audio
            ((effectiveOverride audio_path manifest_params).min_silence.getD
              min_silence_len)
            ((effectiveOverride audio_path manifest_params).threshold.getD
              silence_thresh)).length : Int)) := by
  unfold segment_audio_file at hr
  rw [hdec] at hr
  simp only [hstruct, Option.some.injEq] at hr
  subst hr
  refine ⟨?_, ?_, ?_, ?_⟩
  · exact bne_iff_ne
  · exact List.length_zip bs syllables
  · rfl
  · intro hui h1 h2 h3
    exact applyStructural_no_use_indices _ _ _ _ hstruct hui h1 h2 h3

/-- Closed instance of the amended claim C5 (no structural override): three
intervals against one expected syllable gives mismatch, one saved clip, and
`segments_found` equal to the detected count. -/
theorem c5_amended_result_counts_witness :
    ((({ source_file := "L/row_z.mp3", syllables := ["가"],
         segments_found := 3, segments_saved := 1,
         output_files := ["L/syllables/ga.mp3"], mismatch := true,
         skipped_segments := 0,
         effective_params := { min_silence := some 200,
                               threshold := some (-40), padding := some 50 },
         timestamps := [("ga", ⟨0, 100, 0, 150⟩)] } : SegmentResultM).mismatch
        = true) ↔ (3 : Nat) ≠ 1) ∧
    (1 : Nat) = min 3 1 ∧
    ((3 : Int) = ((3 : Nat) : Int) + 0) := by
  have h := c5_amended_result_counts envC5 "L/row_z.mp3" ["가"] "L/syllables"
    200 (-40) 50 none ⟨1000⟩ [(0, 100), (200, 300), (400, 500)] 0
    { source_file := "L/row_z.mp3", syllables := ["가"],
      segments_found := 3, segments_saved := 1,
      output_files := ["L/syllables/ga.mp3"], mismatch := true,
      skipped_segments := 0,
      effective_params := { min_silence := some 200,
                            threshold := some (-40), padding := some 50 },
      timestamps := [("ga", ⟨0, 100, 0, 150⟩)] }
    (by decide) (by decide) (by decide)
  refine ⟨?_, ?_, ?_⟩
  · exact h.1
  · exact h.2.1
  · have h4 := h.2.2.2 (by decide) (by decide) (by decide) (by decide)
    have h5 := h.2.2.1
    simp only at h4 h5
    omega

/-! ### Override precedence and reset (claim C6) -/

/-- Drop the persisted `segment_params` from one source entry. -/
def eraseSourceParams (p : String × SourceInfo) : String × SourceInfo :=
  (p.1, { p.2 with segment_params := none })

/-- Drop the persisted `segment_params` from every source of a manifest. -/
def eraseParams (m : Manifest) : Manifest :=
  { columns := m.columns.map eraseSourceParams
    rows := m.rows.map eraseSourceParams
    syllable_table := m.syllable_table }

lemma processStep_reset (env : Env) (dir sdir : String) (ms th pad : Int)
    (st : ProcState) (p : String × SourceInfo)
    (hp : env.present (pathJoin dir p.2.file) = true) :
    processStep env dir sdir ms th pad true st p
      = processStep env dir sdir ms th pad false st (eraseSourceParams p) := by
  obtain ⟨ch, f, rom, syls, sp⟩ := p
  simp [processStep, eraseSourceParams, hp]

lemma processSources_reset (env : Env) (dir sdir : String) (ms th pad : Int) :
    ∀ (l : List (String × SourceInfo)) (st : ProcState),
    (∀ p ∈ l, env.present (pathJoin dir p.2.file) = true) →
    processSources env dir sdir ms th pad true st l
      = processSources env dir sdir ms th pad false st
          (l.map eraseSourceParams) := by
  intro l
  induction l with
  | nil => intro st h; rfl
  | cons hd tl ih =>
    intro st h
    rw [List.map_cons]
    simp only [processSources]
    rw [← processStep_reset env dir sdir ms th pad st hd
      (h hd (List.mem_cons_self _ _))]
    cases hps : processStep env dir sdir ms th pad true st hd with
    | none => rfl
    | some st' => exact ih st' (fun p hp => h p (List.mem_cons_of_mem _ hp))

/-- Claim C6: numeric and structural parameters are resolved field-wise
with precedence base defaults < built-in per-file default table < manifest
params (each layer overriding only the fields it sets), and the
reset-to-defaults flag makes a batch behave exactly as if the persisted
`segment_params` were absent (the built-in table still applies inside
`segment_audio_file`). -/
theorem c6_precedence_and_reset :
    (∀ (env : Env) (audio_path : String) (syllables : List String)
       (output_dir : String) (min_silence_len silence_thresh padding_ms : Int)
       (mp : Params) (audio : Audio) (r : SegmentResultM),
       env.decode audio_path = some audio →
       segment_audio_file env audio_path syllables output_dir min_silence_len
         silence_thresh padding_ms (some mp) = some r →
       r.effective_params.min_silence = some
         (match mp.min_silence,
            (DEFAULT_AUDIO_OVERRIDES (pathName audio_path)).min_silence with
          | some v, _ => v
          | none, some v => v
          | none, none => min_silence_len) ∧
       r.effective_params.threshold = some
         (match mp.threshold,
            (DEFAULT_AUDIO_OVERRIDES (pathName audio_path)).threshold with
          | some v, _ => v
          | none, some v => v
          | none, none => silence_thresh) ∧
       r.effective_params.padding = some
         (match mp.padding,
            (DEFAULT_AUDIO_OVERRIDES (pathName audio_path)).padding with
          | some v, _ => v
          | none, some v => v
          | none, none => padding_ms) ∧
       r.effective_params.skip_first =
         (match mp.skip_first with
          | some v => some v
          | none => (DEFAULT_AUDIO_OVERRIDES (pathName audio_path)).skip_first) ∧
       r.effective_params.skip_last =
         (match mp.skip_last with
          | some v => some v
          | none => (DEFAULT_AUDIO_OVERRIDES (pathName audio_path)).skip_last) ∧
       (effectiveOverride audio_path (some mp)).use_indices =
         (match mp.use_indices with
          | some v => some v
          | none => (DEFAULT_AUDIO_OVERRIDES (pathName audio_path)).use_indices))
    ∧ (∀ (env : Env) (dir : String) (m : Manifest) (ms th pad : Int),
       (∀ p ∈ m.columns, env.present (pathJoin dir p.2.file) = true) →
       (∀ p ∈ m.rows, env.present (pathJoin dir p.2.file) = true) →
       segment_lesson1 env dir m ms th pad true
         = segment_lesson1 env dir (eraseParams m) ms th pad false) := by
  constructor
  · intro env audio_path syllables output_dir ms th pad mp audio r hdec hr
    unfold segment_audio_file at hr
    rw [hdec] at hr
    cases hap : applyStructural (effectiveOverride audio_path (some mp))
        (env.detect audio
          ((effectiveOverride audio_path (some mp)).min_silence.getD ms)
          ((effectiveOverride audio_path (some mp)).threshold.getD th)) with
    | none =>
      simp only [hap] at hr
      exact absurd hr (by simp)
    | some bsk =>
      simp only [hap, Option.some.injEq] at hr
      subst hr
      dsimp only
      unfold effectiveOverride
      simp only [Option.getD_some]
      generalize DEFAULT_AUDIO_OVERRIDES (pathName audio_path) = d
      refine ⟨?_, ?_, ?_, ?_, ?_, ?_⟩
      · cases hm : mp.min_silence <;> cases hd1 : d.min_silence <;>
          simp [mergeParams, orO, hm, hd1]
      · cases hm : mp.threshold <;> cases hd1 : d.threshold <;>
          simp [mergeParams, orO, hm, hd1]
      · cases hm : mp.padding <;> cases hd1 : d.padding <;>
          simp [mergeParams, orO, hm, hd1]
      · cases hm : mp.skip_first <;> simp [mergeParams, orO, hm]
      · cases hm : mp.skip_last <;> simp [mergeParams, orO, hm]
      · cases hm : mp.use_indices <;> simp [mergeParams, orO, hm]
  · intro env dir m ms th pad hc hrw
    obtain ⟨mc, mr, mt⟩ := m
    simp only [segment_lesson1, eraseParams]
    rw [processSources_reset env dir (pathJoin dir "syllables") ms th pad mc
      ⟨[], [], []⟩ hc]
    generalize processSources env dir (pathJoin dir "syllables") ms th pad
      false ⟨[], [], []⟩ (List.map eraseSourceParams mc) = oC
    cases oC with
    | none => rfl
    | some stC =>
      dsimp only
      rw [processSources_reset env dir (pathJoin dir "syllables") ms th pad mr
        ⟨[], stC.results, stC.all_ts⟩ hrw]

/-- Environment for the claim C6 witness: the built-in table covers
`row_k.mp3` with `min_silence = 150`. -/
def envC6 : Env :=
  { present := fun _ => true
    decode := fun p => if p = "L/row_k.mp3" then some ⟨1000⟩ else none
    detect := fun _ _ _ => [(0, 400)] }

/-- Concrete manifest with one row whose audio is present, for the claim C6
reset witness. -/
def mC6 : Manifest :=
  { columns := []
    rows := [("ㅋ", { file := "row_k.mp3", romanization := some "k",
                      syllables := ["가"],
                      segment_params := some { min_silence := some 99 } })]
    syllable_table := [("가", { consonant := some "ㄱ", vowel := some "ㅏ",
                                romanization := some "ga", segment := none })] }

/-- Closed instance of claim C6: manifest params beat the built-in table,
the built-in table beats the caller base value, untouched fields fall
through, and a reset batch equals a batch on the erased manifest. -/
theorem c6_precedence_and_reset_witness :
    (∃ r : SegmentResultM,
      segment_audio_file envC6 "L/row_k.mp3" ["가"] "L/syllables" 200 (-40) 50
          (some { threshold := some (-35) }) = some r ∧
      r.effective_params.min_silence = some 150 ∧
      r.effective_params.threshold = some (-35) ∧
      r.effective_params.padding = some 50)
    ∧ segment_lesson1 envC6 "L" mC6 200 (-40) 50 true
        = segment_lesson1 envC6 "L" (eraseParams mC6) 200 (-40) 50 false := by
  constructor
  · have hrun : ∃ r : SegmentResultM,
        segment_audio_file envC6 "L/row_k.mp3" ["가"] "L/syllables" 200 (-40)
          50 (some { threshold := some (-35) }) = some r := by
      refine ⟨?_, ?_⟩
      · exact
          { source_file := "L/row_k.mp3", syllables := ["가"],
            segments_found := 1, segments_saved := 1,
            output_files := ["L/syllables/ga.mp3"], mismatch := false,
            skipped_segments := 0,
            effective_params := { min_silence := some 150,
                                  threshold := some (-35),
                                  padding := some 50 },
            timestamps := [("ga", ⟨0, 400, 0, 450⟩)] }
      · decide
    obtain ⟨r, hr⟩ := hrun
    have h := c6_precedence_and_reset.1 envC6 "L/row_k.mp3" ["가"]
      "L/syllables" 200 (-40) 50 { threshold := some (-35) } ⟨1000⟩ r
      (by decide) hr
    exact ⟨r, hr, h.1.trans (by decide), h.2.1.trans (by decide),
      h.2.2.1.trans (by decide)⟩
  · exact c6_precedence_and_reset.2 envC6 "L" mC6 200 (-40) 50
      (by intro p hp; simp [mC6] at hp)
      (by intro p hp; simp [mC6] at hp; subst hp; decide)

/-! ### Batch failure semantics (claim C3) -/

/-- Claim C3 (amended): in the `segment_lesson1` source loop, a source
whose audio file is missing is skipped — it is written back unchanged and
contributes no result — and the loop proceeds; but a source whose audio
decodes with an error makes the step raise, and a raised step aborts the
whole remaining loop (hence no reconciliation or write-back happens for
any source of the batch). -/
theorem c3_amended_batch_failure :
    (∀ (env : Env) (dir sdir : String) (ms th pad : Int) (reset : Bool)
       (st : ProcState) (ch : String) (info : SourceInfo),
       env.present (pathJoin dir info.file) = false →
       processStep env dir sdir ms th pad reset st (ch, info)
         = some { st with srcs := st.srcs ++ [(ch, info)] })
    ∧ (∀ (env : Env) (dir sdir : String) (ms th pad : Int) (reset : Bool)
       (st : ProcState) (ch : String) (info : SourceInfo),
       env.present (pathJoin dir info.file) = true →
       env.decode (pathJoin dir info.file) = none →
       processStep env dir sdir ms th pad reset st (ch, info) = none)
    ∧ (∀ (env : Env) (dir sdir : String) (ms th pad : Int) (reset : Bool)
       (l₁ l₂ : List (String × SourceInfo)) (st : ProcState),
       processSources env dir sdir ms th pad reset st l₁ = none →
       processSources env dir sdir ms th pad reset st (l₁ ++ l₂) = none) := by
  refine ⟨?_, ?_, ?_⟩
  · intro env dir sdir ms th pad reset st ch info hp
    simp [processStep, hp]
  · intro env dir sdir ms th pad reset st ch info hp hdec
    simp [processStep, hp, segment_audio_file, hdec]
  · intro env dir sdir ms th pad reset l₁ l₂ st h
    induction l₁ generalizing st with
    | nil => simp [processSources] at h
    | cons hd tl ih =>
      rw [List.cons_append]
      simp only [processSources] at h ⊢
      cases hps : processStep env dir sdir ms th pad reset st hd with
      | none => rfl
      | some st' =>
        rw [hps] at h
        exact ih st' h

/-- Environment for the claim C3 instances: `row_g.mp3` exists but fails to
decode, `row_n.mp3` is fine. -/
def envC3 : Env :=
  { present := fun p => p = "L/row_g.mp3" || p = "L/row_n.mp3"
    decode := fun p => if p = "L/row_n.mp3" then some ⟨1000⟩ else none
    detect := fun _ _ _ => [(0, 400)] }

/-- Manifest with an undecodable first row and a healthy second row. -/
def mC3 : Manifest :=
  { columns := []
    rows := [("ㄱ", { file := "row_g.mp3", romanization := some "g",
                      syllables := ["가"], segment_params := none }),
             ("ㄴ", { file := "row_n.mp3", romanization := some "n",
                      syllables := ["나"], segment_params := none })]
    syllable_table := [("가", { consonant := some "ㄱ", vowel := some "ㅏ",
                                romanization := some "ga", segment := none }),
                       ("나", { consonant := some "ㄴ", vowel := some "ㅏ",
                                romanization := some "na", segment := none })] }

/-- The same manifest without the undecodable row. -/
def mC3good : Manifest :=
  { columns := []
    rows := [("ㄴ", { file := "row_n.mp3", romanization := some "n",
                      syllables := ["나"], segment_params := none })]
    syllable_table := mC3.syllable_table }

/-- Claim C3 is false for an undecodable source: with rows
`[row_g (undecodable), row_n (healthy)]` the whole batch aborts (`none`),
so `row_n` is neither segmented nor reconciled — although on the manifest
without `row_g` it is segmented and reconciled. -/
theorem c3_undecodable_aborts_batch_counterexample :
    segment_lesson1 envC3 "L" mC3 200 (-40) 50 false = none ∧
    envC3.present "L/row_n.mp3" = true ∧
    (segment_lesson1 envC3 "L" mC3good 200 (-40) 50 false).map
        (fun pr => (lookupD pr.2.syllable_table "나").map
          (fun i => i.segment))
      = some (some (some { file := some "syllables/na.mp3"
                           baseline := some ⟨0, 400, 0, 450⟩
                           manual := none })) :=
  ⟨by decide, by decide, by decide⟩

/-- Closed instance of the amended claim C3: a missing file is skipped with
the source written back unchanged, an undecodable file raises, and a raised
step kills the rest of the loop. -/
theorem c3_amended_batch_failure_witness :
    processStep envC3 "L" "L/syllables" 200 (-40) 50 false ⟨[], [], []⟩
        ("ㅁ", { file := "row_m.mp3", romanization := some "m",
                 syllables := ["마"], segment_params := none })
      = some ⟨[("ㅁ", { file := "row_m.mp3", romanization := some "m",
                        syllables := ["마"], segment_params := none })],
              [], []⟩ ∧
    processStep envC3 "L" "L/syllables" 200 (-40) 50 false ⟨[], [], []⟩
        ("ㄱ", { file := "row_g.mp3", romanization := some "g",
                 syllables := ["가"], segment_params := none })
      = none ∧
    processSources envC3 "L" "L/syllables" 200 (-40) 50 false ⟨[], [], []⟩
        ([("ㄱ", { file := "row_g.mp3", romanization := some "g",
                   syllables := ["가"], segment_params := none })] ++
         [("ㄴ", { file := "row_n.mp3", romanization := some "n",
                   syllables := ["나"], segment_params := none })])
      = none := by
  refine ⟨?_, ?_, ?_⟩
  · exact c3_amended_batch_failure.1 envC3 "L" "L/syllables" 200 (-40) 50
      false ⟨[], [], []⟩ "ㅁ"
      { file := "row_m.mp3", romanization := some "m",
        syllables := ["마"], segment_params := none } (by decide)
  · exact c3_amended_batch_failure.2.1 envC3 "L" "L/syllables" 200 (-40) 50
      false ⟨[], [], []⟩ "ㄱ"
      { file := "row_g.mp3", romanization := some "g",
        syllables := ["가"], segment_params := none } (by decide) (by decide)
  · exact c3_amended_batch_failure.2.2 envC3 "L" "L/syllables" 200 (-40) 50
      false
      [("ㄱ", { file := "row_g.mp3", romanization := some "g",
                syllables := ["가"], segment_params := none })]
      [("ㄴ", { file := "row_n.mp3", romanization := some "n",
                syllables := ["나"], segment_params := none })]
      ⟨[], [], []⟩ (by decide)

/-! ### Manual apply / reset (claims C7, C8, C9) -/

lemma segmentInfo_isEmptyDict_fields (d : SegmentInfo)
    (h : d.isEmptyDict = true) :
    d.file = none ∧ d.baseline = none ∧ d.manual = none := by
  unfold SegmentInfo.isEmptyDict at h
  simp only [Bool.and_eq_true, Option.isNone_iff_eq_none] at h
  exact ⟨h.1.1, h.1.2, h.2⟩

lemma findRow_eq_none (rows : List (String × SourceInfo)) (syl : String)
    (h : ∀ p ∈ rows, syl ∉ p.2.syllables) : findRow rows syl = none := by
  induction rows with
  | nil => rfl
  | cons hd tl ih =>
    simp only [findRow]
    rw [if_neg (h hd (List.mem_cons_self _ _))]
    exact ih (fun p hp => h p (List.mem_cons_of_mem _ hp))

/-- Claim C7 as stated: `apply_manual_segment` returns `False` exactly when
the syllable is unknown or the owning source's audio cannot be decoded. -/
def c7ClaimStatement : Prop :=
  ∀ (env : Env) (dir : String) (m : Manifest) (syl : String) (s e p : Int),
    apply_manual_segment env dir m syl s e p = some (false, m, []) →
    lookupD m.syllable_table syl = none ∨
    (∃ row, findRow m.rows syl = some row ∧
      env.decode (pathJoin dir row.file) = none)

/-- Environment for the claim C7 counterexample: everything present and
decodable. -/
def envC7 : Env :=
  { present := fun _ => true
    decode := fun _ => some ⟨1000⟩
    detect := fun _ _ _ => [(0, 400)] }

/-- Manifest whose syllable `아` appears only in a column source. -/
def mC7 : Manifest :=
  { columns := [("ㅏ", { file := "col_a.mp3", romanization := some "a",
                         syllables := ["아"], segment_params := none })]
    rows := []
    syllable_table := [("아", { consonant := some "ㅇ", vowel := some "ㅏ",
                                romanization := some "a", segment := none })] }

/-- Claim C7 is false: `아` is in the syllable table and every file is
present and decodable, yet `apply_manual_segment` returns `False` because
the owning-source scan looks at rows only. -/
theorem c7_false_for_column_syllable_counterexample : ¬ c7ClaimStatement := by
  intro h
  have h2 := h envC7 "L" mC7 "아" 100 200 75 (by decide)
  rcases h2 with h3 | ⟨row, h4, h5⟩
  · exact absurd h3 (by decide)
  · simp [mC7, findRow] at h4

/-- Claim C7 (amended): `apply_manual_segment` returns `False` (leaving the
manifest unchanged and writing nothing) exactly when the syllable is
missing from the syllable table or its entry is empty, or no row's
syllable list contains it (the owning-source scan covers rows only), or
the owning row's audio file is missing; an existing but undecodable audio
raises instead of returning `False`; on success it re-extracts the padded
window, sets `manual` to the new time range, preserves `baseline` and
`file`, and synthesizes the default file path when no (non-empty) segment
record with a `file` existed. -/
theorem c7_amended_apply_manual :
    (∀ (env : Env) (dir : String) (m : Manifest) (syl : String) (s e p : Int),
       (lookupD m.syllable_table syl = none
        ∨ (∃ info, lookupD m.syllable_table syl = some info ∧
             info.truthy = false)
        ∨ (∃ info, lookupD m.syllable_table syl = some info ∧
             findRow m.rows syl = none)
        ∨ (∃ info row, lookupD m.syllable_table syl = some info ∧
             findRow m.rows syl = some row ∧
             env.present (pathJoin dir row.file) = false)) →
       apply_manual_segment env dir m syl s e p = some (false, m, []))
    ∧ (∀ (env : Env) (dir : String) (m : Manifest) (syl : String)
       (s e p : Int) (info : SyllableInfo) (row : SourceInfo) (audio : Audio),
       lookupD m.syllable_table syl = some info →
       info.truthy = true →
       findRow m.rows syl = some row →
       env.present (pathJoin dir row.file) = true →
       env.decode (pathJoin dir row.file) = some audio →
       ∃ seg : SegmentInfo,
         apply_manual_segment env dir m syl s e p = some (true,
           Manifest.mk m.columns m.rows
             (tableUpdate m.syllable_table syl
               { info with segment := some seg }),
           [{ path := pathJoin (pathJoin dir "syllables")
                ((info.romanization.getD "") ++ ".mp3")
              sliceStart := max 0 (s - p)
              sliceEnd := min audio.lengthMs (e + p) }]) ∧
         seg.manual = some ⟨s, e, max 0 (s - p), min audio.lengthMs (e + p)⟩ ∧
         seg.baseline = info.segment.bind SegmentInfo.baseline ∧
         seg.file = some ((info.segment.bind SegmentInfo.file).getD
           ("syllables/" ++ (info.romanization.getD "") ++ ".mp3")))
    ∧ (∀ (env : Env) (dir : String) (m : Manifest) (syl : String)
       (s e p : Int) (info : SyllableInfo) (row : SourceInfo),
       lookupD m.syllable_table syl = some info →
       info.truthy = true →
       findRow m.rows syl = some row →
       env.present (pathJoin dir row.file) = true →
       env.decode (pathJoin dir row.file) = none →
       apply_manual_segment env dir m syl s e p = none) := by
  refine ⟨?_, ?_, ?_⟩
  · intro env dir m syl s e p h
    rcases h with h1 | ⟨info, h1, h2⟩ | ⟨info, h1, h2⟩ | ⟨info, row, h1, h2, h3⟩
    · simp [apply_manual_segment, h1]
    · simp [apply_manual_segment, h1, h2]
    · cases htb : info.truthy with
      | false => simp [apply_manual_segment, h1, htb]
      | true => simp [apply_manual_segment, h1, htb, h2]
    · cases htb : info.truthy with
      | false => simp [apply_manual_segment, h1, htb]
      | true => simp [apply_manual_segment, h1, htb, h2, h3]
  · intro env dir m syl s e p info row audio h1 h2 h3 h4 h5
    simp only [apply_manual_segment, h1, h2, h3, h4, h5, Bool.true_eq_false,
      if_false]
    refine ⟨_, rfl, rfl, ?_, ?_⟩
    · cases hseg : info.segment with
      | none => simp
      | some d =>
        by_cases he : d.isEmptyDict
        · obtain ⟨hf, hb, hm⟩ := segmentInfo_isEmptyDict_fields d he
          simp [he, hb]
        · by_cases hf : d.file.isNone
          · simp [he, hf]
          · simp [he, hf]
    · cases hseg : info.segment with
      | none => simp
      | some d =>
        by_cases he : d.isEmptyDict
        · obtain ⟨hf, hb, hm⟩ := segmentInfo_isEmptyDict_fields d he
          simp [he, hf]
        · cases hdf : d.file with
          | none => simp [he, hdf]
          | some f => simp [he, hdf]
  · intro env dir m syl s e p info row h1 h2 h3 h4 h5
    simp [apply_manual_segment, h1, h2, h3, h4, h5]

/-- Manifest with one row syllable `가` (baseline, no manual) for the
claim C7 witness. -/
def mW7 : Manifest :=
  { columns := []
    rows := [("ㄱ", { file := "row_g.mp3", romanization := some "g",
                      syllables := ["가"], segment_params := none })]
    syllable_table :=
      [("가", { consonant := some "ㄱ", vowel := some "ㅏ",
                romanization := some "ga",
                segment := some (SegmentInfo.mk (some "syllables/ga.mp3")
                  (some ⟨0, 400, 0, 475⟩) none) })] }

/-- Closed instance of the amended claim C7: a successful manual apply with
padded window clamped to `[0, 425]`, plus a `False` return on an unknown
syllable. -/
theorem c7_amended_apply_manual_witness :
    (∃ seg : SegmentInfo,
      apply_manual_segment envC7 "L" mW7 "가" 50 350 75 = some (true,
        Manifest.mk mW7.columns mW7.rows
          (tableUpdate mW7.syllable_table "가"
            { consonant := some "ㄱ", vowel := some "ㅏ",
              romanization := some "ga", segment := some seg }),
        [{ path := pathJoin (pathJoin "L" "syllables") ("ga" ++ ".mp3")
           sliceStart := max 0 (50 - 75)
           sliceEnd := min (1000 : Int) (350 + 75) }]) ∧
      seg.manual = some ⟨50, 350, max 0 (50 - 75), min (1000 : Int) (350 + 75)⟩ ∧
      seg.baseline = some ⟨0, 400, 0, 475⟩ ∧
      seg.file = some "syllables/ga.mp3")
    ∧ apply_manual_segment envC7 "L" mW7 "벚" 1 2 3 = some (false, mW7, []) := by
  constructor
  · exact c7_amended_apply_manual.2.1 envC7 "L" mW7 "가" 50 350 75
      { consonant := some "ㄱ", vowel := some "ㅏ", romanization := some "ga",
        segment := some (SegmentInfo.mk (some "syllables/ga.mp3")
          (some ⟨0, 400, 0, 475⟩) none) }
      { file := "row_g.mp3", romanization := some "g", syllables := ["가"],
        segment_params := none }
      ⟨1000⟩ (by decide) (by decide) (by decide) (by decide) (by decide)
  · exact c7_amended_apply_manual.1 envC7 "L" mW7 "벚" 1 2 3
      (Or.inl (by decide))

/-- Claim C8: `reset_manual_segment` returns `False` and leaves the
manifest unchanged when the syllable is unknown, has no segment record, or
has no baseline; on success it re-extracts the baseline's padded window,
removes `manual`, and leaves `baseline` and `file` unchanged. -/
theorem c8_reset_manual_spec :
    (∀ (env : Env) (dir : String) (m : Manifest) (syl : String),
       (lookupD m.syllable_table syl = none
        ∨ (∃ info, lookupD m.syllable_table syl = some info ∧
             (info.segment = none ∨
              info.segment.bind SegmentInfo.baseline = none))) →
       reset_manual_segment env dir m syl = some (false, m, []))
    ∧ (∀ (env : Env) (dir : String) (m : Manifest) (syl : String)
       (info : SyllableInfo) (d : SegmentInfo) (b : SegmentTimestamp)
       (row : SourceInfo) (audio : Audio),
       lookupD m.syllable_table syl = some info →
       info.truthy = true →
       info.segment = some d →
       d.baseline = some b →
       findRow m.rows syl = some row →
       env.present (pathJoin dir row.file) = true →
       env.decode (pathJoin dir row.file) = some audio →
       reset_manual_segment env dir m syl = some (true,
         Manifest.mk m.columns m.rows
           (tableUpdate m.syllable_table syl
             { info with segment := some ({ d with manual := none }) }),
         [{ path := pathJoin (pathJoin dir "syllables")
              ((info.romanization.getD "") ++ ".mp3")
            sliceStart := b.padded_start_ms
            sliceEnd := b.padded_end_ms }]) ∧
       ({ d with manual := none } : SegmentInfo).baseline = d.baseline ∧
       ({ d with manual := none } : SegmentInfo).file = d.file) := by
  constructor
  · intro env dir m syl h
    rcases h with h1 | ⟨info, h1, h2⟩
    · simp [reset_manual_segment, h1]
    · cases htb : info.truthy with
      | false => simp [reset_manual_segment, h1, htb]
      | true =>
        rcases h2 with h2 | h2
        · simp [reset_manual_segment, h1, htb, h2]
        · cases hseg : info.segment with
          | none => simp [reset_manual_segment, h1, htb, hseg]
          | some d =>
            rw [hseg] at h2
            simp only [Option.some_bind] at h2
            simp [reset_manual_segment, h1, htb, hseg, h2]
  · intro env dir m syl info d b row audio h1 h2 h3 h4 h5 h6 h7
    simp only [reset_manual_segment, h1, h2, h3, h4, h5, h6, h7,
      Bool.true_eq_false, if_false]
    simp

/-- Manifest for the claim C8 witness: `가` has baseline and manual,
`노` has manual but no baseline. -/
def mW8 : Manifest :=
  { columns := []
    rows := [("ㄱ", { file := "row_g.mp3", romanization := some "g",
                      syllables := ["가"], segment_params := none })]
    syllable_table :=
      [("가", { consonant := some "ㄱ", vowel := some "ㅏ",
                romanization := some "ga",
                segment := some (SegmentInfo.mk (some "syllables/ga.mp3")
                  (some ⟨8, 398, 0, 448⟩) (some ⟨50, 350, 0, 425⟩)) }),
       ("노", { consonant := some "ㄴ", vowel := some "ㅗ",
                romanization := some "no",
                segment := some (SegmentInfo.mk (some "syllables/no.mp3")
                  none (some ⟨1, 2, 3, 4⟩)) })] }

/-- Closed instance of claim C8: a successful reset (manual removed,
baseline window re-extracted) and a failing reset on a manual-only entry. -/
theorem c8_reset_manual_spec_witness :
    reset_manual_segment envC7 "L" mW8 "가" = some (true,
      Manifest.mk mW8.columns mW8.rows
        (tableUpdate mW8.syllable_table "가"
          { consonant := some "ㄱ", vowel := some "ㅏ",
            romanization := some "ga",
            segment := some ({ SegmentInfo.mk (some "syllables/ga.mp3")
              (some ⟨8, 398, 0, 448⟩) (some ⟨50, 350, 0, 425⟩)
                with manual := none }) }),
      [{ path := pathJoin (pathJoin "L" "syllables") ("ga" ++ ".mp3")
         sliceStart := 0
         sliceEnd := 448 }])
    ∧ reset_manual_segment envC7 "L" mW8 "노" = some (false, mW8, []) := by
  constructor
  · have h := c8_reset_manual_spec.2 envC7 "L" mW8 "가"
      { consonant := some "ㄱ", vowel := some "ㅏ", romanization := some "ga",
        segment := some (SegmentInfo.mk (some "syllables/ga.mp3")
          (some ⟨8, 398, 0, 448⟩) (some ⟨50, 350, 0, 425⟩)) }
      (SegmentInfo.mk (some "syllables/ga.mp3") (some ⟨8, 398, 0, 448⟩)
        (some ⟨50, 350, 0, 425⟩))
      ⟨8, 398, 0, 448⟩
      { file := "row_g.mp3", romanization := some "g", syllables := ["가"],
        segment_params := none }
      ⟨1000⟩ (by decide) (by decide) (by decide) (by decide) (by decide)
      (by decide) (by decide)
    exact h.1
  · exact c8_reset_manual_spec.1 envC7 "L" mW8 "노"
      (Or.inr ⟨{ consonant := some "ㄴ", vowel := some "ㅗ",
                 romanization := some "no",
                 segment := some (SegmentInfo.mk (some "syllables/no.mp3")
                   none (some ⟨1, 2, 3, 4⟩)) },
               by decide, Or.inr (by decide)⟩)

/-- Claim C9: both manual operations locate the owning source by scanning
rows only — a syllable present only in a column source makes both return
`False` with the manifest unchanged, even though the entry exists and the
column's audio is present and decodes. -/
theorem c9_rows_only_scan :
    ∀ (env : Env) (dir : String) (m : Manifest) (syl : String) (s e p : Int)
      (info : SyllableInfo),
      lookupD m.syllable_table syl = some info →
      (∀ pr ∈ m.rows, syl ∉ pr.2.syllables) →
      (∃ pc ∈ m.columns, syl ∈ pc.2.syllables ∧
         env.present (pathJoin dir pc.2.file) = true ∧
         (env.decode (pathJoin dir pc.2.file)).isSome = true) →
      apply_manual_segment env dir m syl s e p = some (false, m, []) ∧
      reset_manual_segment env dir m syl = some (false, m, []) := by
  intro env dir m syl s e p info h1 h2 h3
  have hrow := findRow_eq_none m.rows syl h2
  constructor
  · cases htb : info.truthy with
    | false => simp [apply_manual_segment, h1, htb]
    | true => simp [apply_manual_segment, h1, htb, hrow]
  · cases htb : info.truthy with
    | false => simp [reset_manual_segment, h1, htb]
    | true =>
      cases hseg : info.segment with
      | none => simp [reset_manual_segment, h1, htb, hseg]
      | some d =>
        cases hb : d.baseline with
        | none => simp [reset_manual_segment, h1, htb, hseg, hb]
        | some b => simp [reset_manual_segment, h1, htb, hseg, hb, hrow]

/-- Closed instance of claim C9 on the column-only syllable `아`. -/
theorem c9_rows_only_scan_witness :
    apply_manual_segment envC7 "L" mC7 "아" 100 200 75
        = some (false, mC7, []) ∧
    reset_manual_segment envC7 "L" mC7 "아" = some (false, mC7, []) := by
  refine c9_rows_only_scan envC7 "L" mC7 "아" 100 200 75
    { consonant := some "ㅇ", vowel := some "ㅏ", romanization := some "a",
      segment := none }
    (by decide) (by intro pr hpr; simp [mC7] at hpr) ?_
  exact ⟨("ㅏ", { file := "col_a.mp3", romanization := some "a",
                  syllables := ["아"], segment_params := none }),
         by decide, by decide, by decide, by decide⟩

end KrScraper
